import Mathlib

/-!
Shallow embedding of the study-comparison query service (`app.py`).

Python strings are modelled as `String` (lists of characters); the ASCII
character transforms used by the service (`str.strip`, `str.lower`,
`str.replace("_", " ")`, `int(...)`) are modelled on `List Char` via the
character codepoint (`Char.toNat`).  The relational store is modelled as
lists of rows, and each SQL query of the source is translated into a
join/filter/project pipeline with `SELECT DISTINCT` as first-occurrence
deduplication and `LIMIT n` as `List.take n`.  A fallible backing store is
modelled by `Store`: a database together with a failure pattern saying
which `execute` calls (numbered within one request) raise; a handler that
does not catch the exception returns `Except.error`, a handler that
catches it builds the 500 response itself.
-/

/-! ### Python character primitives -/

/-- Python `str.strip` whitespace test, restricted to the ASCII whitespace
characters (space, tab, newline, carriage return, vertical tab, form feed). -/
def pySpace (c : Char) : Bool :=
  c.toNat = 32 || c.toNat = 9 || c.toNat = 10 || c.toNat = 13 || c.toNat = 11 || c.toNat = 12

/-- Python `str.lower` on one character (ASCII fragment): uppercase letters
are shifted by 32, all other characters are unchanged. -/
def lowCh (c : Char) : Char :=
  if 65 ≤ c.toNat ∧ c.toNat ≤ 90 then Char.ofNat (c.toNat + 32) else c

/-- One character of Python `str.replace("_", " ")`: an underscore (code 95)
becomes a space, anything else is unchanged. -/
def replCh (c : Char) : Char :=
  if c.toNat = 95 then ' ' else c

/-- Python `str.lower` over a character list. -/
def lowerL (l : List Char) : List Char := l.map lowCh

/-- Python `str.replace("_", " ")` over a character list. -/
def replL (l : List Char) : List Char := l.map replCh

/-- Remove leading whitespace (the left half of Python `str.strip`). -/
def lstripL (l : List Char) : List Char := l.dropWhile pySpace

/-- Remove trailing whitespace (the right half of Python `str.strip`). -/
def rstripL : List Char → List Char
  | [] => []
  | c :: cs =>
    match rstripL cs with
    | [] => if pySpace c then [] else [c]
    | d :: ds => c :: d :: ds

/-- Python `str.strip`: remove leading and trailing whitespace. -/
def stripL (l : List Char) : List Char := rstripL (lstripL l)

/-! ### Term normalization (`normalize_term`, `app.py` lines 26-31) and the
display transform (`app.py` lines 100-101, 149-150) -/

/-- The fixed storage qualifier prepended to term values (`app.py` line 27). -/
def termQualifier : String := "terms_abstract_tfidf__"

/-- The storage qualifier as a character list. -/
def termQualifierL : List Char := termQualifier.data

/-- Core of `normalize_term` on character lists: strip, lower-case, and
prepend the storage qualifier unless it is already present. -/
def normL (l : List Char) : List Char :=
  if termQualifierL.isPrefixOf (lowerL (stripL l)) then lowerL (stripL l)
  else termQualifierL ++ lowerL (stripL l)

/-- `normalize_term` (`app.py` lines 26-31): `term.strip().lower()`, then
prefix with the storage qualifier when missing. -/
def normalize_term (term : String) : String := ⟨normL term.data⟩

/-- The display transform used by the term dissociation and intersection
handlers (`app.py` lines 100-101 and 149-150):
`term.replace("_", " ").strip().lower()`. -/
def displayTerm (term : String) : String := ⟨lowerL (stripL (replL term.data))⟩

/-- The term value actually sent to the store by the dissociation and
intersection handlers (`app.py` lines 103-104 and 152-153):
`normalize_term` applied to the display form. -/
def dbTermValue (term : String) : String := normalize_term (displayTerm term)

/-! ### Coordinate parsing (`app.py` lines 183-187) -/

/-- Python `int(s)` on a delimiter-free token: digits of a decimal number. -/
def digitsVal (cs : List Char) : Option Nat :=
  if cs = [] then none
  else cs.foldl (fun acc c =>
    match acc with
    | none => none
    | some a => if 48 ≤ c.toNat ∧ c.toNat ≤ 57 then some (a * 10 + (c.toNat - 48)) else none)
    (some 0)

/-- Python `int(s)` (ASCII fragment) over a character list: surrounding
whitespace is allowed, then an optional single sign followed by at least one
decimal digit; anything else raises `ValueError`, modelled as `none`. -/
def pyIntL (l : List Char) : Option Int :=
  match stripL l with
  | [] => none
  | c :: rest =>
    if c.toNat = 45 then (digitsVal rest).map (fun n => -(n : Int))
    else if c.toNat = 43 then (digitsVal rest).map (fun n => (n : Int))
    else (digitsVal (c :: rest)).map (fun n => (n : Int))

/-- Python `int(s)` on a string. -/
def pyInt (s : String) : Option Int := pyIntL s.data

/-- Python `token.split("_")` over a character list: the (always nonempty)
list of delimiter-free components, so `"".split("_") = [""]` and consecutive
underscores yield empty components. -/
def splitUnders : List Char → List (List Char)
  | [] => [[]]
  | c :: cs =>
    match splitUnders cs with
    | [] => [[]]
    | p :: ps => if c.toNat = 95 then [] :: p :: ps else (c :: p) :: ps

/-- `x, y, z = map(int, token.split("_"))` (`app.py` lines 184-185): succeeds
exactly when the token splits on `_` into exactly three components and each
component parses as a Python integer; any other shape raises `ValueError`. -/
def parseCoordToken (s : String) : Option (Int × Int × Int) :=
  match splitUnders s.data with
  | [a, b, c] =>
    match pyIntL a, pyIntL b, pyIntL c with
    | some x, some y, some z => some (x, y, z)
    | _, _, _ => none
  | _ => none

/-! ### Data model (schema `ns`, spec section 3) -/

/-- One row of `ns.annotations_terms`: `(study_id, contrast_id, term, weight)`. -/
structure AnnotRow where
  study_id : String
  contrast_id : String
  term : String
  weight : Int
  deriving DecidableEq

/-- One row of `ns.metadata`: at least `(study_id, title)`. -/
structure MetaRow where
  study_id : String
  title : String
  deriving DecidableEq

/-- One row of `ns.coordinates`, exposed as three integer axes. -/
structure CoordRow where
  study_id : String
  x : Int
  y : Int
  z : Int
  deriving DecidableEq

/-- A `(study_id, title)` pair as returned by every query of the core. -/
structure StudyRow where
  study_id : String
  title : String
  deriving DecidableEq

/-- The relational store: the three relations used by the core. -/
structure DB where
  annotations_terms : List AnnotRow
  metadata : List MetaRow
  coordinates : List CoordRow

/-! ### SQL building blocks -/

/-- `SELECT DISTINCT`: keep the first occurrence of every value, in row order. -/
def sqlDistinctAux {α : Type} [DecidableEq α] (seen : List α) : List α → List α
  | [] => []
  | a :: l => if a ∈ seen then sqlDistinctAux seen l else a :: sqlDistinctAux (a :: seen) l

/-- `SELECT DISTINCT` over a row list. -/
def sqlDistinct {α : Type} [DecidableEq α] (l : List α) : List α := sqlDistinctAux [] l

/-- `FROM ns.annotations_terms s JOIN ns.metadata m ON s.study_id = m.study_id`. -/
def joinAnnotMeta (db : DB) : List (AnnotRow × MetaRow) :=
  db.annotations_terms.flatMap fun s =>
    (db.metadata.filter fun m => m.study_id == s.study_id).map fun m => (s, m)

/-- The `NOT EXISTS` subquery of the term anti-joins (`app.py` lines 113-116
and 125-128): is there an annotation row for this study with this term? -/
def existsTermRow (db : DB) (sid t : String) : Bool :=
  db.annotations_terms.any fun b => b.study_id == sid && b.term == t

/-- The membership query of `get_studies_by_term` (`app.py` lines 85-91):
distinct `(study_id, title)` of studies annotated with the term, capped at
10,000 rows. -/
def membershipRows (db : DB) (t : String) : List StudyRow :=
  (sqlDistinct (((joinAnnotMeta db).filter fun p => p.1.term == t).map
    fun p => StudyRow.mk p.1.study_id p.2.title)).take 10000

/-- One direction of the term dissociation (`app.py` lines 108-118): distinct
`(study_id, title)` of studies with a row for `tKeep` and no row for `tExcl`,
capped at 1,000 rows. -/
def antiJoinTermRows (db : DB) (tKeep tExcl : String) : List StudyRow :=
  (sqlDistinct (((joinAnnotMeta db).filter fun p =>
      p.1.term == tKeep && !existsTermRow db p.1.study_id tExcl).map
    fun p => StudyRow.mk p.2.study_id p.2.title)).take 1000

/-- The intersection query of `intersect_terms` (`app.py` lines 157-165):
distinct `(study_id, title)` of studies with a row for each term, capped at
100 rows. -/
def interJoinTermRows (db : DB) (ta tb : String) : List StudyRow :=
  (sqlDistinct (((db.annotations_terms.flatMap fun a =>
      (db.annotations_terms.filter fun b => b.study_id == a.study_id).flatMap fun b =>
        (db.metadata.filter fun m => m.study_id == a.study_id).map fun m => (a, b, m)).filter
      fun p => p.1.term == ta && p.2.1.term == tb).map
    fun p => StudyRow.mk p.2.2.study_id p.2.2.title)).take 100

/-- The `NOT EXISTS` subquery of the coordinate anti-joins (`app.py` lines
196-200 and 212-216): is there a coordinate row for this study equal to the
point on all three axes? -/
def existsCoordRow (db : DB) (sid : String) (cx cy cz : Int) : Bool :=
  db.coordinates.any fun c => c.study_id == sid && c.x == cx && c.y == cy && c.z == cz

/-- One direction of the coordinate dissociation (`app.py` lines 191-205):
distinct `(study_id, title)` of studies reporting the kept point and not the
excluded point, capped at 100 rows. -/
def antiJoinCoordRows (db : DB) (kx ky kz ex ey ez : Int) : List StudyRow :=
  (sqlDistinct (((db.coordinates.flatMap fun c =>
      (db.metadata.filter fun m => m.study_id == c.study_id).map fun m => (c, m)).filter
      fun p => p.1.x == kx && p.1.y == ky && p.1.z == kz &&
        !existsCoordRow db p.1.study_id ex ey ez).map
    fun p => StudyRow.mk p.2.study_id p.2.title)).take 100

/-- The query of `/terms_sample` (`app.py` line 76): distinct raw term
strings, capped at 100,000 rows. -/
def termsSampleRows (db : DB) : List String :=
  (sqlDistinct (db.annotations_terms.map fun r => r.term)).take 100000

/-! ### JSON documents and HTTP responses -/

/-- A JSON value; object fields are an ordered association list, matching the
`OrderedDict` values built by the handlers. -/
inductive JVal where
  | str : String → JVal
  | arr : List JVal → JVal
  | obj : List (String × JVal) → JVal

/-- An HTTP response: status code and JSON body. -/
structure HttpResponse where
  status : Nat
  body : JVal

/-- The backing store as seen by one request: the database plus a failure
pattern telling which `execute` calls (numbered from 0 within the request)
raise, and with which message. -/
structure Store where
  db : DB
  failAt : Nat → Option String

/-- A store whose every query succeeds. -/
def Store.healthy (db : DB) : Store := ⟨db, fun _ => none⟩

/-- Run the `i`-th `execute` of a request against the store: either the
store raises (`Except.error` with the exception message) or the query
function is evaluated on the database. -/
def runExec {α : Type} (st : Store) (i : Nat) (q : DB → α) : Except String α :=
  match st.failAt i with
  | some e => Except.error e
  | none => Except.ok (q st.db)

/-- An error body `{"error": <message>}` as built by the `except` branches. -/
def errBody (e : String) : JVal := JVal.obj [("error", JVal.str e)]

/-- One result element `{"study_id": ..., "title": ...}`. -/
def rowJson (r : StudyRow) : JVal :=
  JVal.obj [("study_id", JVal.str r.study_id), ("title", JVal.str r.title)]

/-- The comma-joined coordinate echo built by the f-strings on `app.py`
lines 225-226. -/
def coordEcho (x y z : Int) : String :=
  toString x ++ "," ++ toString y ++ "," ++ toString z

/-- The 400 message of `app.py` line 187. -/
def coordErrMsg : String := "Coordinates must be in x_y_z format and integers."

/-! ### Route handlers.  A handler returns `Except.ok` with the response it
builds; `Except.error` means an exception escaped the handler and is left to
the web framework (whose fallback error page is not a JSON `error` body). -/

/-- `GET /terms_sample` (`app.py` lines 72-77).  The query runs outside any
`try`, so a store failure propagates. -/
def get_terms_sample (st : Store) : Except String HttpResponse :=
  (runExec st 0 termsSampleRows).map fun ts =>
    HttpResponse.mk 200 (JVal.arr (ts.map JVal.str))

/-- `GET /terms/<term>/studies` (`app.py` lines 79-94): normalize the raw
path segment, run the membership query, 500 with an error body on failure. -/
def get_studies_by_term (st : Store) (term : String) : Except String HttpResponse :=
  let t := normalize_term term
  match runExec st 0 (fun db => membershipRows db t) with
  | Except.ok rows => Except.ok (HttpResponse.mk 200 (JVal.arr (rows.map rowJson)))
  | Except.error e => Except.ok (HttpResponse.mk 500 (errBody e))

/-- `GET /dissociate/terms/<term_a>/<term_b>` (`app.py` lines 96-143):
display-transform both terms, normalize the display forms, run the two
anti-join queries, and assemble the ordered response object. -/
def functional_dissociation (st : Store) (term_a term_b : String) :
    Except String HttpResponse :=
  let taD := displayTerm term_a
  let tbD := displayTerm term_b
  let taQ := normalize_term taD
  let tbQ := normalize_term tbD
  match runExec st 0 (fun db => antiJoinTermRows db taQ tbQ) with
  | Except.error e => Except.ok (HttpResponse.mk 500 (errBody e))
  | Except.ok rows_a =>
    match runExec st 1 (fun db => antiJoinTermRows db tbQ taQ) with
    | Except.error e => Except.ok (HttpResponse.mk 500 (errBody e))
    | Except.ok rows_b =>
      Except.ok (HttpResponse.mk 200 (JVal.obj [
        ("term_a", JVal.str taD),
        ("term_b", JVal.str tbD),
        ("term_a_not_term_b", JVal.arr (rows_a.map rowJson)),
        ("term_b_not_term_a", JVal.arr (rows_b.map rowJson))]))

/-- `GET /intersect/terms/<term_a>/<term_b>` (`app.py` lines 145-177). -/
def intersect_terms (st : Store) (term_a term_b : String) :
    Except String HttpResponse :=
  let taD := displayTerm term_a
  let tbD := displayTerm term_b
  let taQ := normalize_term taD
  let tbQ := normalize_term tbD
  match runExec st 0 (fun db => interJoinTermRows db taQ tbQ) with
  | Except.error e => Except.ok (HttpResponse.mk 500 (errBody e))
  | Except.ok rows =>
    Except.ok (HttpResponse.mk 200 (JVal.obj [
      ("term_a", JVal.str taD),
      ("term_b", JVal.str tbD),
      ("term_a_and_term_b", JVal.arr (rows.map rowJson))]))

/-- `GET /dissociate/locations/<coord1>/<coord2>` (`app.py` lines 179-234):
parse both tokens (400 on `ValueError` before any store access), then run
the two coordinate anti-joins and assemble the ordered response object. -/
def dissociate_coordinates (st : Store) (coord1 coord2 : String) :
    Except String HttpResponse :=
  match parseCoordToken coord1, parseCoordToken coord2 with
  | some (x1, y1, z1), some (x2, y2, z2) =>
    (match runExec st 0 (fun db => antiJoinCoordRows db x1 y1 z1 x2 y2 z2) with
    | Except.error e => Except.ok (HttpResponse.mk 500 (errBody e))
    | Except.ok rows12 =>
      match runExec st 1 (fun db => antiJoinCoordRows db x2 y2 z2 x1 y1 z1) with
      | Except.error e => Except.ok (HttpResponse.mk 500 (errBody e))
      | Except.ok rows21 =>
        Except.ok (HttpResponse.mk 200 (JVal.obj [
          ("coordinate_1", JVal.str (coordEcho x1 y1 z1)),
          ("coordinate_2", JVal.str (coordEcho x2 y2 z2)),
          ("coordinate_1_not_coordinate_2", JVal.arr (rows12.map rowJson)),
          ("coordinate_2_not_coordinate_1", JVal.arr (rows21.map rowJson))])))
  | _, _ => Except.ok (HttpResponse.mk 400 (errBody coordErrMsg))

/-! ### JSON serialization (`json.dumps` with default separators), emitting
object fields in association-list order as `OrderedDict` serialization does. -/

mutual

/-- Serialize a JSON value. -/
def serializeJVal : JVal → String
  | JVal.str s => "\"" ++ s ++ "\""
  | JVal.arr l => "[" ++ serializeElems l ++ "]"
  | JVal.obj l => "\x7b" ++ serializeFields l ++ "\x7d"

/-- Serialize array elements, comma-separated, in list order. -/
def serializeElems : List JVal → String
  | [] => ""
  | [v] => serializeJVal v
  | v :: vs => serializeJVal v ++ ", " ++ serializeElems vs

/-- Serialize object fields, comma-separated, in association-list order. -/
def serializeFields : List (String × JVal) → String
  | [] => ""
  | [(k, v)] => "\"" ++ k ++ "\": " ++ serializeJVal v
  | (k, v) :: fs => "\"" ++ k ++ "\": " ++ serializeJVal v ++ ", " ++ serializeFields fs

end

/-- The keys of a JSON object, in serialization order. -/
def jsonKeys : JVal → List String
  | JVal.obj l => l.map Prod.fst
  | _ => []

/-! ### Concrete sample data used to exercise the theorems -/

/-- A small sample database: two studies, both annotated with `pain`, one of
them also with `reward`, each reporting one coordinate. -/
def dbEx : DB where
  annotations_terms := [
    ⟨"s1", "c1", "terms_abstract_tfidf__pain", 1⟩,
    ⟨"s2", "c1", "terms_abstract_tfidf__pain", 1⟩,
    ⟨"s2", "c2", "terms_abstract_tfidf__reward", 1⟩]
  metadata := [⟨"s1", "Study One"⟩, ⟨"s2", "Study Two"⟩]
  coordinates := [⟨"s1", 0, 0, 0⟩, ⟨"s2", 10, 10, 10⟩]

/-- An empty database. -/
def dbEmpty : DB := ⟨[], [], []⟩

/-- A store whose every query raises with message `boom`. -/
def stBoom : Store := ⟨dbEmpty, fun _ => some "boom"⟩

/-- A store over the sample database whose second `execute` raises. -/
def stFailSecond : Store :=
  ⟨dbEx, fun i => if i = 1 then some "late failure" else none⟩

/-! ### Character-level lemmas -/

theorem char_toNat_inj {a b : Char} (h : a.toNat = b.toNat) : a = b :=
  Char.ext (UInt32.ext h)

theorem char_eq_iff {a b : Char} : a = b ↔ a.toNat = b.toNat :=
  ⟨fun h => h ▸ rfl, char_toNat_inj⟩

theorem toNat_ofNat_char {n : Nat} (h : n < 55296) : (Char.ofNat n).toNat = n := by
  rw [Char.ofNat, dif_pos (Or.inl (Nat.lt_of_lt_of_le h (by omega)))]
  rfl

theorem toNat_lowCh (c : Char) :
    (lowCh c).toNat = if 65 ≤ c.toNat ∧ c.toNat ≤ 90 then c.toNat + 32 else c.toNat := by
  unfold lowCh
  by_cases h : 65 ≤ c.toNat ∧ c.toNat ≤ 90
  · rw [if_pos h, if_pos h]
    exact toNat_ofNat_char (by omega)
  · rw [if_neg h, if_neg h]

theorem pySpace_eq_decide (c : Char) :
    pySpace c = decide (c.toNat = 32 ∨ c.toNat = 9 ∨ c.toNat = 10 ∨ c.toNat = 13 ∨
      c.toNat = 11 ∨ c.toNat = 12) := by
  simp [pySpace, Bool.or_assoc]

theorem lowCh_idem (c : Char) : lowCh (lowCh c) = lowCh c := by
  apply char_toNat_inj
  have h1 := toNat_lowCh c
  have h2 := toNat_lowCh (lowCh c)
  split at h1 <;> split at h2 <;> omega

theorem pySpace_lowCh (c : Char) : pySpace (lowCh c) = pySpace c := by
  rw [pySpace_eq_decide, pySpace_eq_decide, decide_eq_decide]
  have h1 := toNat_lowCh c
  split at h1 <;> omega

theorem lowCh_eq_underscore (c : Char) : lowCh c = '_' ↔ c = '_' := by
  rw [char_eq_iff, char_eq_iff]
  have h95 : ('_' : Char).toNat = 95 := rfl
  rw [h95]
  have h1 := toNat_lowCh c
  split at h1 <;> omega

theorem toNat_replCh (c : Char) :
    (replCh c).toNat = if c.toNat = 95 then 32 else c.toNat := by
  unfold replCh
  by_cases h : c.toNat = 95
  · rw [if_pos h, if_pos h]
    rfl
  · rw [if_neg h, if_neg h]

theorem replCh_ne_underscore (c : Char) : replCh c ≠ '_' := by
  intro h
  have h2 := congrArg Char.toNat h
  have h95 : ('_' : Char).toNat = 95 := rfl
  rw [h95, toNat_replCh] at h2
  split at h2 <;> omega

theorem replCh_of_pySpace {c : Char} (h : pySpace c = true) : replCh c = c := by
  rw [pySpace_eq_decide, decide_eq_true_eq] at h
  unfold replCh
  rw [if_neg (by omega)]

theorem lowCh_replCh (c : Char) : lowCh (replCh c) = replCh (lowCh c) := by
  apply char_toNat_inj
  have h1 := toNat_lowCh (replCh c)
  have h2 := toNat_replCh c
  have h3 := toNat_replCh (lowCh c)
  have h4 := toNat_lowCh c
  split at h1 <;> split at h2 <;> split at h3 <;> split at h4 <;> omega

theorem pySpace_underscore : pySpace '_' = false := by decide

/-! ### Underscore-count lemmas -/

theorem count_underscore_lowerL (l : List Char) :
    (lowerL l).count '_' = l.count '_' := by
  induction l with
  | nil => rfl
  | cons c t ih =>
    simp only [lowerL, List.map_cons, List.count_cons] at *
    rw [ih]
    congr 1
    simp [beq_iff_eq, lowCh_eq_underscore]

theorem count_underscore_replL (l : List Char) : (replL l).count '_' = 0 := by
  induction l with
  | nil => rfl
  | cons c t ih =>
    simp only [replL, List.map_cons, List.count_cons] at *
    rw [ih]
    simp [beq_iff_eq, replCh_ne_underscore c]

/-! ### `sqlDistinct` lemmas -/

theorem mem_sqlDistinctAux {α : Type} [DecidableEq α] (a : α) :
    ∀ (l seen : List α), a ∈ sqlDistinctAux seen l ↔ a ∈ l ∧ a ∉ seen := by
  intro l
  induction l with
  | nil => intro seen; simp [sqlDistinctAux]
  | cons b t ih =>
    intro seen
    simp only [sqlDistinctAux]
    by_cases hb : b ∈ seen
    · rw [if_pos hb, ih]
      simp only [List.mem_cons]
      constructor
      · rintro ⟨h1, h2⟩
        exact ⟨Or.inr h1, h2⟩
      · rintro ⟨h1 | h1, h2⟩
        · subst h1
          exact absurd hb h2
        · exact ⟨h1, h2⟩
    · rw [if_neg hb]
      simp only [List.mem_cons, ih]
      constructor
      · rintro (rfl | ⟨h1, h2⟩)
        · exact ⟨Or.inl rfl, hb⟩
        · refine ⟨Or.inr h1, fun hs => h2 (Or.inr hs)⟩
      · rintro ⟨rfl | h1, h2⟩
        · exact Or.inl rfl
        · by_cases hab : a = b
          · exact Or.inl hab
          · exact Or.inr ⟨h1, by simp [hab, h2]⟩

theorem nodup_sqlDistinctAux {α : Type} [DecidableEq α] :
    ∀ (l seen : List α), (sqlDistinctAux seen l).Nodup := by
  intro l
  induction l with
  | nil => intro seen; simp [sqlDistinctAux]
  | cons b t ih =>
    intro seen
    simp only [sqlDistinctAux]
    by_cases hb : b ∈ seen
    · rw [if_pos hb]
      exact ih seen
    · rw [if_neg hb]
      refine List.Nodup.cons ?_ (ih (b :: seen))
      intro hmem
      exact ((mem_sqlDistinctAux b t (b :: seen)).mp hmem).2 (List.mem_cons_self b seen)

theorem mem_sqlDistinct {α : Type} [DecidableEq α] {a : α} {l : List α} :
    a ∈ sqlDistinct l ↔ a ∈ l := by
  unfold sqlDistinct
  rw [mem_sqlDistinctAux]
  simp

theorem nodup_sqlDistinct {α : Type} [DecidableEq α] (l : List α) :
    (sqlDistinct l).Nodup :=
  nodup_sqlDistinctAux l []

/-! ### Strip, lower and replace lemmas on character lists -/

theorem rstripL_cons (c : Char) (cs : List Char) :
    rstripL (c :: cs) = match rstripL cs with
      | [] => if pySpace c then [] else [c]
      | d :: ds => c :: d :: ds := rfl

theorem lstripL_idem (l : List Char) : lstripL (lstripL l) = lstripL l := by
  induction l with
  | nil => rfl
  | cons c cs ih =>
    by_cases h : pySpace c
    · simp only [lstripL, List.dropWhile_cons, h, if_true]
      exact ih
    · simp [lstripL, List.dropWhile_cons, h]

theorem rstripL_idem (l : List Char) : rstripL (rstripL l) = rstripL l := by
  induction l with
  | nil => rfl
  | cons c cs ih =>
    rw [rstripL_cons]
    cases hr : rstripL cs with
    | nil =>
      by_cases h : pySpace c
      · simp [h, rstripL]
      · simp [h, rstripL_cons, rstripL]
    | cons d ds =>
      rw [hr] at ih
      simp only
      rw [rstripL_cons, ih]

theorem lstripL_lowerL (l : List Char) : lstripL (lowerL l) = lowerL (lstripL l) := by
  induction l with
  | nil => rfl
  | cons c cs ih =>
    simp only [lowerL, List.map_cons, lstripL, List.dropWhile_cons, pySpace_lowCh]
    by_cases h : pySpace c
    · simp only [h, if_true]
      exact ih
    · simp [h]

theorem rstripL_lowerL (l : List Char) : rstripL (lowerL l) = lowerL (rstripL l) := by
  induction l with
  | nil => rfl
  | cons c cs ih =>
    simp only [lowerL, List.map_cons]
    rw [rstripL_cons, rstripL_cons]
    cases hr : rstripL cs with
    | nil =>
      rw [hr] at ih
      simp only [lowerL] at ih
      rw [ih]
      simp only [pySpace_lowCh]
      by_cases h : pySpace c
      · simp [h]
      · simp [h, lowerL]
    | cons d ds =>
      rw [hr] at ih
      simp only [lowerL, List.map_cons] at ih
      rw [ih]
      rfl

theorem stripL_lowerL (l : List Char) : stripL (lowerL l) = lowerL (stripL l) := by
  unfold stripL
  rw [lstripL_lowerL, rstripL_lowerL]

theorem lstripL_rstripL_of_lstripped {l : List Char} (h : lstripL l = l) :
    lstripL (rstripL l) = rstripL l := by
  cases l with
  | nil => rfl
  | cons c cs =>
    have hc : pySpace c = false := by
      by_contra hcc
      have hc' : pySpace c = true := by
        cases hcn : pySpace c
        · exact absurd hcn hcc
        · rfl
      have h2 : lstripL (c :: cs) = lstripL cs := by
        simp [lstripL, List.dropWhile_cons, hc']
      rw [h2] at h
      have h3 : (lstripL cs).length ≤ cs.length :=
        (List.dropWhile_sublist pySpace).length_le
      rw [h] at h3
      simp at h3
    rw [rstripL_cons]
    cases hr : rstripL cs with
    | nil =>
      simp [hc, lstripL, List.dropWhile_cons]
    | cons d ds =>
      simp [hc, lstripL, List.dropWhile_cons]

theorem stripL_idem (l : List Char) : stripL (stripL l) = stripL l := by
  show rstripL (lstripL (rstripL (lstripL l))) = stripL l
  rw [lstripL_rstripL_of_lstripped (lstripL_idem l), rstripL_idem]
  rfl

theorem stripL_lowerL_stripL (l : List Char) :
    stripL (lowerL (stripL l)) = lowerL (stripL l) := by
  rw [stripL_lowerL, stripL_idem]

theorem lowerL_idem (l : List Char) : lowerL (lowerL l) = lowerL l := by
  induction l with
  | nil => rfl
  | cons c cs ih =>
    simp only [lowerL, List.map_cons] at *
    rw [lowCh_idem, ih]

theorem rstripL_eq_nil_of_space {t : List Char} (ht : ∀ c ∈ t, pySpace c = true) :
    rstripL t = [] := by
  induction t with
  | nil => rfl
  | cons c cs ih =>
    rw [rstripL_cons, ih fun d hd => ht d (List.mem_cons_of_mem c hd)]
    simp [ht c (List.mem_cons_self c cs)]

theorem rstripL_append_of_space {t : List Char} (l : List Char)
    (ht : ∀ c ∈ t, pySpace c = true) : rstripL (l ++ t) = rstripL l := by
  induction l with
  | nil => exact rstripL_eq_nil_of_space ht
  | cons c cs ih =>
    rw [List.cons_append, rstripL_cons, rstripL_cons, ih]

theorem lstripL_append_of_space {p : List Char} (l : List Char)
    (hp : ∀ c ∈ p, pySpace c = true) : lstripL (p ++ l) = lstripL l := by
  induction p with
  | nil => rfl
  | cons c cs ih =>
    rw [List.cons_append]
    simp only [lstripL, List.dropWhile_cons, hp c (List.mem_cons_self c cs), if_true]
    exact ih fun d hd => hp d (List.mem_cons_of_mem c hd)

theorem rstripL_append_right {x y : List Char} (hy : rstripL y = y) (hn : y ≠ []) :
    rstripL (x ++ y) = x ++ y := by
  induction x with
  | nil => exact hy
  | cons c cs ih =>
    rw [List.cons_append, rstripL_cons, ih]
    cases hxy : cs ++ y with
    | nil =>
      exact absurd (List.append_eq_nil.mp hxy).2 hn
    | cons d ds => rfl

theorem rstripL_of_append_eq {x y : List Char} (h : rstripL (x ++ y) = x ++ y) :
    rstripL y = y := by
  induction x with
  | nil => exact h
  | cons c cs ih =>
    apply ih
    rw [List.cons_append, rstripL_cons] at h
    cases hr : rstripL (cs ++ y) with
    | nil =>
      rw [hr] at h
      by_cases hc : pySpace c
      · simp [hc] at h
      · simp only [hc, if_false] at h
        have hlen := congrArg List.length h
        simp at hlen
        rw [hlen.1, hlen.2]
        rfl
    | cons d ds =>
      rw [hr] at h
      simp only [List.cons.injEq] at h
      exact h.2

theorem rstripL_decomp (l : List Char) :
    ∃ t, l = rstripL l ++ t ∧ ∀ c ∈ t, pySpace c = true := by
  induction l with
  | nil => exact ⟨[], rfl, by simp⟩
  | cons c cs ih =>
    obtain ⟨t, ht1, ht2⟩ := ih
    rw [rstripL_cons]
    cases hr : rstripL cs with
    | nil =>
      rw [hr, List.nil_append] at ht1
      by_cases hc : pySpace c
      · refine ⟨c :: cs, ?_, ?_⟩
        · simp [hc]
        · intro d hd
          rcases List.mem_cons.mp hd with rfl | hd2
          · exact hc
          · exact ht2 d (ht1 ▸ hd2)
      · refine ⟨cs, ?_, fun d hd => ht2 d (ht1 ▸ hd)⟩
        simp [hc]
    | cons d ds =>
      rw [hr] at ht1
      exact ⟨t, by rw [List.cons_append, ← ht1], ht2⟩

theorem lstripL_decomp (l : List Char) :
    ∃ p, l = p ++ lstripL l ∧ ∀ c ∈ p, pySpace c = true := by
  refine ⟨l.takeWhile pySpace, (List.takeWhile_append_dropWhile pySpace l).symm, ?_⟩
  intro c hc
  exact List.mem_takeWhile_imp hc

theorem count_underscore_lstripL (l : List Char) :
    (lstripL l).count '_' = l.count '_' := by
  obtain ⟨p, hp1, hp2⟩ := lstripL_decomp l
  conv_rhs => rw [hp1]
  rw [List.count_append]
  have hz : p.count '_' = 0 := by
    rw [List.count_eq_zero]
    intro hmem
    have := hp2 '_' hmem
    rw [pySpace_underscore] at this
    exact Bool.false_ne_true this
  omega

theorem count_underscore_rstripL (l : List Char) :
    (rstripL l).count '_' = l.count '_' := by
  obtain ⟨t, ht1, ht2⟩ := rstripL_decomp l
  conv_rhs => rw [ht1]
  rw [List.count_append]
  have hz : t.count '_' = 0 := by
    rw [List.count_eq_zero]
    intro hmem
    have := ht2 '_' hmem
    rw [pySpace_underscore] at this
    exact Bool.false_ne_true this
  omega

theorem count_underscore_stripL (l : List Char) :
    (stripL l).count '_' = l.count '_' := by
  unfold stripL
  rw [count_underscore_rstripL, count_underscore_lstripL]

theorem replCh_of_ne {c : Char} (h : c ≠ '_') : replCh c = c := by
  unfold replCh
  rw [if_neg]
  intro h95
  exact h (char_toNat_inj h95)

theorem replL_of_space {p : List Char} (hp : ∀ c ∈ p, pySpace c = true) :
    replL p = p := by
  unfold replL
  rw [List.map_congr_left fun c hc => replCh_of_pySpace (hp c hc)]
  exact List.map_id p

theorem replL_of_no_underscore {l : List Char} (h : l.count '_' = 0) : replL l = l := by
  unfold replL
  rw [List.count_eq_zero] at h
  rw [List.map_congr_left fun c hc => replCh_of_ne fun hc2 => h (hc2 ▸ hc)]
  exact List.map_id l

theorem lowerL_replL (l : List Char) : lowerL (replL l) = replL (lowerL l) := by
  induction l with
  | nil => rfl
  | cons c cs ih =>
    simp only [lowerL, replL, List.map_cons] at *
    rw [lowCh_replCh, ih]

/-! ### Normalization lemmas -/

theorem rstripL_stripL (l : List Char) : rstripL (stripL l) = stripL l := by
  unfold stripL
  rw [rstripL_idem]

theorem rstripL_lowerL_stripL (l : List Char) :
    rstripL (lowerL (stripL l)) = lowerL (stripL l) := by
  rw [rstripL_lowerL, rstripL_stripL]

theorem lowerL_qualifier : lowerL termQualifierL = termQualifierL := by decide

theorem count_underscore_qualifier : termQualifierL.count '_' = 4 := by decide

theorem lstripL_qualifier_append (t : List Char) :
    lstripL (termQualifierL ++ t) = termQualifierL ++ t := by
  have hq : termQualifierL ++ t = 't' :: ("erms_abstract_tfidf__".data ++ t) := rfl
  rw [hq]
  simp [lstripL, List.dropWhile_cons, show pySpace 't' = false from rfl]

theorem stripL_qualifier_append {t : List Char} (ht : rstripL t = t) :
    stripL (termQualifierL ++ t) = termQualifierL ++ t := by
  unfold stripL
  rw [lstripL_qualifier_append]
  by_cases hn : t = []
  · rw [hn, List.append_nil]
    decide
  · exact rstripL_append_right ht hn

theorem qualifier_isPrefixOf_append (t : List Char) :
    termQualifierL.isPrefixOf (termQualifierL ++ t) = true :=
  List.isPrefixOf_iff_prefix.mpr (List.prefix_append termQualifierL t)

theorem normL_idem (l : List Char) : normL (normL l) = normL l := by
  by_cases h : termQualifierL.isPrefixOf (lowerL (stripL l)) = true
  · have h1 : normL l = lowerL (stripL l) := by
      unfold normL
      rw [if_pos h]
    rw [h1]
    unfold normL
    rw [stripL_lowerL_stripL l, lowerL_idem (stripL l), if_pos h]
  · have h1 : normL l = termQualifierL ++ lowerL (stripL l) := by
      unfold normL
      rw [if_neg h]
    rw [h1]
    unfold normL
    rw [stripL_qualifier_append (rstripL_lowerL_stripL l)]
    rw [show lowerL (termQualifierL ++ lowerL (stripL l)) =
        lowerL termQualifierL ++ lowerL (lowerL (stripL l)) from List.map_append lowCh _ _]
    rw [lowerL_qualifier, lowerL_idem (stripL l)]
    rw [if_pos (qualifier_isPrefixOf_append _)]

theorem qualifier_prefix_normL (l : List Char) : termQualifierL <+: normL l := by
  unfold normL
  by_cases h : termQualifierL.isPrefixOf (lowerL (stripL l)) = true
  · rw [if_pos h]
    exact List.isPrefixOf_iff_prefix.mp h
  · rw [if_neg h]
    exact List.prefix_append _ _

theorem normalize_term_idem (x : String) :
    normalize_term (normalize_term x) = normalize_term x :=
  congrArg String.mk (normL_idem x.data)

/-! ### The value queried by the dissociation and intersection handlers -/

theorem count_underscore_displayTerm (raw : String) :
    (displayTerm raw).data.count '_' = 0 := by
  show (lowerL (stripL (replL raw.data))).count '_' = 0
  rw [count_underscore_lowerL, count_underscore_stripL, count_underscore_replL]

theorem not_qualifier_prefix_of_no_underscore {d : List Char} (h : d.count '_' = 0) :
    termQualifierL.isPrefixOf d = false := by
  cases hp : termQualifierL.isPrefixOf d
  · rfl
  · exfalso
    have hpre : termQualifierL <+: d := List.isPrefixOf_iff_prefix.mp hp
    have hc := hpre.sublist.count_le '_'
    rw [count_underscore_qualifier, h] at hc
    omega

theorem dbTermValue_eq (raw : String) :
    dbTermValue raw = ⟨termQualifierL ++ (displayTerm raw).data⟩ := by
  show (⟨normL (displayTerm raw).data⟩ : String) = _
  apply congrArg String.mk
  have hd : (displayTerm raw).data = lowerL (stripL (replL raw.data)) := rfl
  have hstrip : stripL (displayTerm raw).data = (displayTerm raw).data := by
    rw [hd]
    exact stripL_lowerL_stripL (replL raw.data)
  have hlow : lowerL (displayTerm raw).data = (displayTerm raw).data := by
    rw [hd]
    exact lowerL_idem (stripL (replL raw.data))
  have hnp : ¬termQualifierL.isPrefixOf (displayTerm raw).data = true := by
    rw [not_qualifier_prefix_of_no_underscore (count_underscore_displayTerm raw)]
    exact Bool.false_ne_true
  unfold normL
  rw [hstrip, hlow, if_neg hnp]

theorem lstripL_cons_not_space {c : Char} (l : List Char) (h : pySpace c = false) :
    lstripL (c :: l) = c :: l := by
  simp [lstripL, List.dropWhile_cons, h]

theorem stripL_replL_lowerL_of_prefix {rd u : List Char}
    (hu : termQualifierL ++ u = lowerL (stripL rd)) (hcu : u.count '_' = 0) :
    lowerL (stripL (replL rd)) = rstripL (replL termQualifierL ++ u) := by
  have hsw : stripL (lowerL rd) = termQualifierL ++ u := by
    rw [stripL_lowerL, ← hu]
  have hd1 : lowerL (stripL (replL rd)) = stripL (replL (lowerL rd)) := by
    rw [← stripL_lowerL, lowerL_replL]
  obtain ⟨p, hp1, hp2⟩ := lstripL_decomp (lowerL rd)
  obtain ⟨t, ht1, ht2⟩ := rstripL_decomp (lstripL (lowerL rd))
  have ht1' : lstripL (lowerL rd) = (termQualifierL ++ u) ++ t := by
    rw [← hsw]
    exact ht1
  have hw : lowerL rd = p ++ ((termQualifierL ++ u) ++ t) := by
    rw [hp1, ht1']
  have hrepl : replL (lowerL rd) = p ++ ((replL termQualifierL ++ u) ++ t) := by
    rw [hw]
    rw [show replL (p ++ ((termQualifierL ++ u) ++ t)) =
        replL p ++ ((replL termQualifierL ++ replL u) ++ replL t) from by
      simp [replL, List.map_append]]
    rw [replL_of_space hp2, replL_of_space ht2, replL_of_no_underscore hcu]
  have hhead : (replL termQualifierL ++ u) ++ t =
      't' :: (("erms abstract tfidf  ".data ++ u) ++ t) := by
    rw [show replL termQualifierL = 't' :: "erms abstract tfidf  ".data from by decide]
    rfl
  have hstrip : stripL (p ++ ((replL termQualifierL ++ u) ++ t)) =
      rstripL (replL termQualifierL ++ u) := by
    unfold stripL
    rw [lstripL_append_of_space _ hp2, hhead, lstripL_cons_not_space _ (by decide), ← hhead]
    exact rstripL_append_of_space _ ht2
  rw [hd1, hrepl, hstrip]

theorem normL_ne_qualifier_append_display {rd : List Char} (h : 1 ≤ rd.count '_') :
    normL rd ≠ termQualifierL ++ lowerL (stripL (replL rd)) := by
  intro heq
  have hcs : (lowerL (stripL rd)).count '_' = rd.count '_' := by
    rw [count_underscore_lowerL, count_underscore_stripL]
  have hcd : (lowerL (stripL (replL rd))).count '_' = 0 := by
    rw [count_underscore_lowerL, count_underscore_stripL, count_underscore_replL]
  by_cases hq : termQualifierL.isPrefixOf (lowerL (stripL rd)) = true
  · have hn : normL rd = lowerL (stripL rd) := by
      unfold normL
      rw [if_pos hq]
    rw [hn] at heq
    obtain ⟨u, hu⟩ := List.isPrefixOf_iff_prefix.mp hq
    by_cases hcu : u.count '_' = 0
    · have hd := stripL_replL_lowerL_of_prefix hu hcu
      have hud : u = lowerL (stripL (replL rd)) := by
        have h2 : termQualifierL ++ u = termQualifierL ++ lowerL (stripL (replL rd)) := by
          rw [hu, heq]
        exact List.append_cancel_left h2
      rw [hd] at hud
      by_cases hun : u = []
      · rw [hun, List.append_nil] at hud
        rw [show rstripL (replL termQualifierL) = "terms abstract tfidf".data from by decide]
          at hud
        exact absurd hud (by decide)
      · have hrs : rstripL (termQualifierL ++ u) = termQualifierL ++ u := by
          have h1 : rstripL (stripL (lowerL rd)) = stripL (lowerL rd) := rstripL_stripL _
          rw [stripL_lowerL, ← hu] at h1
          exact h1
        have hru : rstripL u = u := rstripL_of_append_eq hrs
        rw [rstripL_append_right hru hun] at hud
        have hlen := congrArg List.length hud
        rw [List.length_append] at hlen
        have h22 : (replL termQualifierL).length = 22 := by decide
        omega
    · have h1 := congrArg (fun l => List.count '_' l) heq
      simp only [List.count_append, count_underscore_qualifier] at h1
      have h2 := congrArg (fun l => List.count '_' l) hu
      simp only [List.count_append, count_underscore_qualifier] at h2
      rw [hcd] at h1
      rw [hcs] at h2
      omega
  · have hn : normL rd = termQualifierL ++ lowerL (stripL rd) := by
      unfold normL
      rw [if_neg hq]
    rw [hn] at heq
    have hsd := List.append_cancel_left heq
    have h1 := congrArg (fun l => List.count '_' l) hsd
    simp only at h1
    omega

theorem normalize_ne_dbTermValue {raw : String} (h : '_' ∈ raw.data) :
    normalize_term raw ≠ dbTermValue raw := by
  intro heq
  rw [dbTermValue_eq] at heq
  have heq2 : normL raw.data = termQualifierL ++ lowerL (stripL (replL raw.data)) := by
    have := congrArg String.data heq
    exact this
  have hcount : 1 ≤ raw.data.count '_' := by
    have := List.count_pos_iff.mpr h
    omega
  exact normL_ne_qualifier_append_display hcount heq2

/-! ### Query-level lemmas -/

theorem mem_of_mem_query {α : Type} [DecidableEq α] {a : α} {l : List α} {n : Nat}
    (h : a ∈ (sqlDistinct l).take n) : a ∈ l :=
  mem_sqlDistinct.mp (List.take_subset n _ h)

theorem nodup_query {α : Type} [DecidableEq α] (l : List α) (n : Nat) :
    ((sqlDistinct l).take n).Nodup :=
  (nodup_sqlDistinct l).sublist (List.take_sublist n _)

theorem nodup_antiJoinTermRows (db : DB) (ta tb : String) :
    (antiJoinTermRows db ta tb).Nodup :=
  nodup_query _ _

theorem nodup_interJoinTermRows (db : DB) (ta tb : String) :
    (interJoinTermRows db ta tb).Nodup :=
  nodup_query _ _

theorem nodup_membershipRows (db : DB) (t : String) :
    (membershipRows db t).Nodup :=
  nodup_query _ _

theorem nodup_antiJoinCoordRows (db : DB) (kx ky kz ex ey ez : Int) :
    (antiJoinCoordRows db kx ky kz ex ey ez).Nodup :=
  nodup_query _ _

theorem mem_joinAnnotMeta {db : DB} {p : AnnotRow × MetaRow} (h : p ∈ joinAnnotMeta db) :
    p.1 ∈ db.annotations_terms ∧ p.2 ∈ db.metadata ∧ p.2.study_id = p.1.study_id := by
  unfold joinAnnotMeta at h
  rw [List.mem_flatMap] at h
  obtain ⟨a, ha, hpa⟩ := h
  rw [List.mem_map] at hpa
  obtain ⟨m, hm, hpam⟩ := hpa
  rw [List.mem_filter, beq_iff_eq] at hm
  subst hpam
  exact ⟨ha, hm.1, hm.2⟩

theorem existsTermRow_spec {db : DB} {sid t : String}
    (h : existsTermRow db sid t = false) :
    ∀ b ∈ db.annotations_terms, b.study_id = sid → b.term ≠ t := by
  intro b hb hbs hbt
  have h2 : existsTermRow db sid t = true := by
    unfold existsTermRow
    rw [List.any_eq_true]
    refine ⟨b, hb, ?_⟩
    rw [Bool.and_eq_true, beq_iff_eq, beq_iff_eq]
    exact ⟨hbs, hbt⟩
  rw [h] at h2
  exact Bool.false_ne_true h2

/-- Soundness of one direction of the term dissociation: every returned row
comes from a metadata row, has an annotation row for the kept term, and has
no annotation row for the excluded term. -/
theorem mem_antiJoinTermRows {db : DB} {ta tb : String} {r : StudyRow}
    (h : r ∈ antiJoinTermRows db ta tb) :
    (∃ m ∈ db.metadata, r.study_id = m.study_id ∧ r.title = m.title) ∧
    (∃ a ∈ db.annotations_terms, a.study_id = r.study_id ∧ a.term = ta) ∧
    (∀ b ∈ db.annotations_terms, b.study_id = r.study_id → b.term ≠ tb) := by
  unfold antiJoinTermRows at h
  have h1 := mem_of_mem_query h
  rw [List.mem_map] at h1
  obtain ⟨p, hp, hproj⟩ := h1
  rw [List.mem_filter] at hp
  obtain ⟨hpj, hpred⟩ := hp
  obtain ⟨ha, hm, hsid⟩ := mem_joinAnnotMeta hpj
  rw [Bool.and_eq_true, beq_iff_eq, Bool.not_eq_true'] at hpred
  obtain ⟨hta, hnex⟩ := hpred
  subst hproj
  refine ⟨⟨p.2, hm, rfl, rfl⟩, ⟨p.1, ha, hsid.symm, hta⟩, ?_⟩
  intro b hb hbs hbt
  exact existsTermRow_spec hnex b hb (by rw [hbs]; exact hsid) hbt

/-- Soundness of the term intersection: every returned row comes from a
metadata row and has an annotation row for each of the two terms. -/
theorem mem_interJoinTermRows {db : DB} {ta tb : String} {r : StudyRow}
    (h : r ∈ interJoinTermRows db ta tb) :
    (∃ m ∈ db.metadata, r.study_id = m.study_id ∧ r.title = m.title) ∧
    (∃ a ∈ db.annotations_terms, a.study_id = r.study_id ∧ a.term = ta) ∧
    (∃ b ∈ db.annotations_terms, b.study_id = r.study_id ∧ b.term = tb) := by
  unfold interJoinTermRows at h
  have h1 := mem_of_mem_query h
  rw [List.mem_map] at h1
  obtain ⟨p, hp, hproj⟩ := h1
  rw [List.mem_filter] at hp
  obtain ⟨hpj, hpred⟩ := hp
  rw [List.mem_flatMap] at hpj
  obtain ⟨a, ha, hpa⟩ := hpj
  rw [List.mem_flatMap] at hpa
  obtain ⟨b, hb, hpb⟩ := hpa
  rw [List.mem_map] at hpb
  obtain ⟨m, hm, hpabm⟩ := hpb
  rw [List.mem_filter, beq_iff_eq] at hb
  rw [List.mem_filter, beq_iff_eq] at hm
  subst hpabm
  rw [Bool.and_eq_true, beq_iff_eq, beq_iff_eq] at hpred
  subst hproj
  refine ⟨⟨m, hm.1, rfl, rfl⟩, ⟨a, ha, ?_, hpred.1⟩, ⟨b, hb.1, ?_, hpred.2⟩⟩
  · exact hm.2.symm
  · rw [hb.2]
    exact hm.2.symm

/-- Soundness of the membership query: every returned row comes from a
metadata row and has an annotation row for the term. -/
theorem mem_membershipRows {db : DB} {t : String} {r : StudyRow}
    (h : r ∈ membershipRows db t) :
    (∃ m ∈ db.metadata, r.study_id = m.study_id ∧ r.title = m.title) ∧
    (∃ a ∈ db.annotations_terms, a.study_id = r.study_id ∧ a.term = t) := by
  unfold membershipRows at h
  have h1 := mem_of_mem_query h
  rw [List.mem_map] at h1
  obtain ⟨p, hp, hproj⟩ := h1
  rw [List.mem_filter, beq_iff_eq] at hp
  obtain ⟨hpj, hpred⟩ := hp
  obtain ⟨ha, hm, hsid⟩ := mem_joinAnnotMeta hpj
  subst hproj
  exact ⟨⟨p.2, hm, hsid.symm, rfl⟩, ⟨p.1, ha, rfl, hpred⟩⟩

theorem existsCoordRow_spec {db : DB} {sid : String} {ex ey ez : Int}
    (h : existsCoordRow db sid ex ey ez = false) :
    ∀ c ∈ db.coordinates, c.study_id = sid → ¬(c.x = ex ∧ c.y = ey ∧ c.z = ez) := by
  intro c hc hcs hxyz
  have h2 : existsCoordRow db sid ex ey ez = true := by
    unfold existsCoordRow
    rw [List.any_eq_true]
    refine ⟨c, hc, ?_⟩
    simp only [Bool.and_eq_true, beq_iff_eq]
    exact ⟨⟨⟨hcs, hxyz.1⟩, hxyz.2.1⟩, hxyz.2.2⟩
  rw [h] at h2
  exact Bool.false_ne_true h2

/-- Soundness of one direction of the coordinate dissociation. -/
theorem mem_antiJoinCoordRows {db : DB} {kx ky kz ex ey ez : Int} {r : StudyRow}
    (h : r ∈ antiJoinCoordRows db kx ky kz ex ey ez) :
    (∃ m ∈ db.metadata, r.study_id = m.study_id ∧ r.title = m.title) ∧
    (∃ c ∈ db.coordinates, c.study_id = r.study_id ∧ c.x = kx ∧ c.y = ky ∧ c.z = kz) ∧
    (∀ c ∈ db.coordinates, c.study_id = r.study_id → ¬(c.x = ex ∧ c.y = ey ∧ c.z = ez)) := by
  unfold antiJoinCoordRows at h
  have h1 := mem_of_mem_query h
  rw [List.mem_map] at h1
  obtain ⟨p, hp, hproj⟩ := h1
  rw [List.mem_filter] at hp
  obtain ⟨hpj, hpred⟩ := hp
  rw [List.mem_flatMap] at hpj
  obtain ⟨c, hc, hpc⟩ := hpj
  rw [List.mem_map] at hpc
  obtain ⟨m, hm, hpcm⟩ := hpc
  rw [List.mem_filter, beq_iff_eq] at hm
  subst hpcm
  simp only [Bool.and_eq_true, beq_iff_eq, Bool.not_eq_true'] at hpred
  subst hproj
  refine ⟨⟨m, hm.1, rfl, rfl⟩,
    ⟨c, hc, hm.2.symm, hpred.1.1.1, hpred.1.1.2, hpred.1.2⟩, ?_⟩
  intro c2 hc2 hcs2 hxyz
  exact existsCoordRow_spec hpred.2 c2 hc2 (by rw [hcs2]; exact hm.2) hxyz

/-- When no two metadata rows share a `study_id`, a deduplicated result list
whose rows all come from metadata has pairwise-distinct `study_id`s. -/
theorem nodup_study_id_of_meta {ms : List MetaRow}
    (hm : (ms.map MetaRow.study_id).Nodup) {L : List StudyRow} (hL : L.Nodup)
    (horig : ∀ r ∈ L, ∃ m ∈ ms, r.study_id = m.study_id ∧ r.title = m.title) :
    (L.map StudyRow.study_id).Nodup := by
  rw [List.nodup_map_iff_inj_on hL]
  intro x hx y hy hxy
  obtain ⟨mx, hmx, hx1, hx2⟩ := horig x hx
  obtain ⟨my, hmy, hy1, hy2⟩ := horig y hy
  have hmm : mx = my := by
    apply (List.nodup_map_iff_inj_on hm.of_map).mp hm mx hmx my hmy
    rw [← hx1, ← hy1, hxy]
  cases x with
  | mk xs xt =>
    cases y with
    | mk ys yt =>
      subst hmm
      simp only at hx1 hx2 hy1 hy2 hxy
      rw [hx2, hy2, hxy]

example : normalize_term " Foo " = "terms_abstract_tfidf__foo" := by decide
example : normalize_term "terms_abstract_tfidf__foo" = "terms_abstract_tfidf__foo" := by decide
example : displayTerm "Social_Cognition" = "social cognition" := by decide
example : dbTermValue "social_cognition" = "terms_abstract_tfidf__social cognition" := by decide
example : pyInt "1" = some 1 := by decide
example : pyInt "-2" = some (-2) := by decide
example : pyInt " 30 " = some 30 := by decide
example : pyInt "" = none := by decide
example : pyInt "-" = none := by decide
example : pyInt "a" = none := by decide
example : parseCoordToken "1_-2_3" = some (1, -2, 3) := by decide
example : parseCoordToken "1_2" = none := by decide
example : parseCoordToken "a_b_c" = none := by decide
example : parseCoordToken "abc_0_0" = none := by decide

/-! ### Handler evaluation lemmas -/

theorem runExec_none {α : Type} {st : Store} {i : Nat} (h : st.failAt i = none)
    (q : DB → α) : runExec st i q = Except.ok (q st.db) := by
  unfold runExec
  rw [h]

theorem runExec_some {α : Type} {st : Store} {i : Nat} {e : String}
    (h : st.failAt i = some e) (q : DB → α) : runExec st i q = Except.error e := by
  unfold runExec
  rw [h]

theorem runExec_healthy {α : Type} (db : DB) (i : Nat) (q : DB → α) :
    runExec (Store.healthy db) i q = Except.ok (q db) := rfl

/-! ### Claim theorems -/

/-- C6: `normalize_term` is idempotent, insensitive to surrounding whitespace
and letter case (witnessed by the `" Foo "`/`"foo"` equation), never errors
(it is a total function of type `String → String`), and its result always
starts with the fixed storage qualifier. -/
theorem claim6_normalize_idempotent :
    (∀ x : String, normalize_term (normalize_term x) = normalize_term x) ∧
    (∀ x : String, termQualifierL <+: (normalize_term x).data) ∧
    normalize_term " Foo " = normalize_term "foo" := by
  refine ⟨normalize_term_idem, ?_, by decide⟩
  intro x
  exact qualifier_prefix_normL x.data

/-- C7: every result list is capped at the per-operation limit: 10,000 rows
for the term-membership lookup, 1,000 rows for each direction of a term
dissociation, 100 rows for each direction of a coordinate dissociation, and
100 rows for a term intersection. -/
theorem claim7_result_caps :
    (∀ (db : DB) (t : String), (membershipRows db t).length ≤ 10000) ∧
    (∀ (db : DB) (ta tb : String), (antiJoinTermRows db ta tb).length ≤ 1000) ∧
    (∀ (db : DB) (kx ky kz ex ey ez : Int),
      (antiJoinCoordRows db kx ky kz ex ey ez).length ≤ 100) ∧
    (∀ (db : DB) (ta tb : String), (interJoinTermRows db ta tb).length ≤ 100) := by
  refine ⟨?_, ?_, ?_, ?_⟩
  · intro db t
    exact List.length_take_le _ _
  · intro db ta tb
    exact List.length_take_le _ _
  · intro db kx ky kz ex ey ez
    exact List.length_take_le _ _
  · intro db ta tb
    exact List.length_take_le _ _

/-- C10: the single-term lookup queries `normalize_term` of the raw path
segment (underscores kept), while the dissociation and intersection handlers
query `dbTermValue` (underscores replaced by spaces before normalizing), so
for every path term containing an underscore the two operations query
different stored term values; in particular `social_cognition` is queried as
the prefixed `social_cognition` by lookup but as the prefixed
`social cognition` by dissociation. -/
theorem claim10_lookup_dissociation_values :
    normalize_term "social_cognition" = "terms_abstract_tfidf__social_cognition" ∧
    dbTermValue "social_cognition" = "terms_abstract_tfidf__social cognition" ∧
    (∀ raw : String, '_' ∈ raw.data → normalize_term raw ≠ dbTermValue raw) := by
  refine ⟨by decide, by decide, ?_⟩
  intro raw h
  exact normalize_ne_dbTermValue h

/-- C10 witness: the general inequality evaluated at `social_cognition`. -/
theorem claim10_witness :
    ('_' ∈ "social_cognition".data) ∧
    normalize_term "social_cognition" ≠ dbTermValue "social_cognition" :=
  ⟨by decide, claim10_lookup_dissociation_values.2.2 "social_cognition" (by decide)⟩

/-- C2 counterexample: for the path term `social_cognition` the dissociation
and intersection handlers send `dbTermValue "social_cognition"` to the store,
and this differs from the normalization of the raw input — the display
transform does feed the queried value, contradicting the claim. -/
theorem claim2_counterexample :
    dbTermValue "social_cognition" ≠ normalize_term "social_cognition" := by
  decide

/-- C2 amended: the display transform is applied before normalization by the
dissociation and intersection handlers, so their queried value is
`normalize_term (displayTerm raw)`; only the single-term lookup queries
`normalize_term raw`.  The two queried values coincide exactly on inputs
without underscores. -/
theorem claim2_display_feeds_query :
    (∀ t : String, dbTermValue t = normalize_term (displayTerm t)) ∧
    (∀ t : String, '_' ∉ t.data → dbTermValue t = normalize_term t) := by
  refine ⟨fun t => rfl, ?_⟩
  intro t h
  have hc : t.data.count '_' = 0 := List.count_eq_zero.mpr h
  have hr : replL t.data = t.data := replL_of_no_underscore hc
  show normalize_term (displayTerm t) = normalize_term t
  unfold normalize_term displayTerm
  apply congrArg String.mk
  rw [hr]
  show normL (lowerL (stripL t.data)) = normL t.data
  unfold normL
  rw [stripL_lowerL_stripL, lowerL_idem]

/-- C2 witness: the amended coincidence statement evaluated at `reward`. -/
theorem claim2_witness :
    ('_' ∉ "reward".data) ∧ dbTermValue "reward" = normalize_term "reward" :=
  ⟨by decide, claim2_display_feeds_query.2 "reward" (by decide)⟩

/-- C3: every `study_id` returned by the term intersection has at least one
annotation row whose term equals the queried normalized form of A and at
least one whose term equals the queried normalized form of B (the queried
forms being `dbTermValue` of the raw inputs, as sent by `intersect_terms`). -/
theorem claim3_intersection_sound (db : DB) (term_a term_b : String) :
    ∀ r ∈ interJoinTermRows db (dbTermValue term_a) (dbTermValue term_b),
      (∃ a ∈ db.annotations_terms,
        a.study_id = r.study_id ∧ a.term = dbTermValue term_a) ∧
      (∃ b ∈ db.annotations_terms,
        b.study_id = r.study_id ∧ b.term = dbTermValue term_b) := by
  intro r hr
  obtain ⟨_, ha, hb⟩ := mem_interJoinTermRows hr
  exact ⟨ha, hb⟩

/-- C3 witness: the intersection soundness evaluated on the sample database
at `pain`/`reward`, where study `s2` carries both terms. -/
theorem claim3_witness :
    (StudyRow.mk "s2" "Study Two" ∈
      interJoinTermRows dbEx (dbTermValue "pain") (dbTermValue "reward")) ∧
    ((∃ a ∈ dbEx.annotations_terms,
        a.study_id = (StudyRow.mk "s2" "Study Two").study_id ∧
        a.term = dbTermValue "pain") ∧
     (∃ b ∈ dbEx.annotations_terms,
        b.study_id = (StudyRow.mk "s2" "Study Two").study_id ∧
        b.term = dbTermValue "reward")) :=
  ⟨by decide, claim3_intersection_sound dbEx "pain" "reward"
    (StudyRow.mk "s2" "Study Two") (by decide)⟩

/-- C1: under the data-model invariant that no two metadata rows share a
`study_id`, each direction of the term dissociation is internally free of
duplicate `study_id`, every returned `study_id` has at least one annotation
row for the kept term's queried form and none for the excluded term's
queried form (the queried forms being `dbTermValue` of the raw inputs, as
sent by `functional_dissociation`), symmetrically in both directions. -/
theorem claim1_dissociation_lists (db : DB) (term_a term_b : String)
    (hm : (db.metadata.map MetaRow.study_id).Nodup) :
    ((antiJoinTermRows db (dbTermValue term_a) (dbTermValue term_b)).map
      StudyRow.study_id).Nodup ∧
    ((antiJoinTermRows db (dbTermValue term_b) (dbTermValue term_a)).map
      StudyRow.study_id).Nodup ∧
    (∀ r ∈ antiJoinTermRows db (dbTermValue term_a) (dbTermValue term_b),
      (∃ a ∈ db.annotations_terms,
        a.study_id = r.study_id ∧ a.term = dbTermValue term_a) ∧
      (∀ b ∈ db.annotations_terms,
        b.study_id = r.study_id → b.term ≠ dbTermValue term_b)) ∧
    (∀ r ∈ antiJoinTermRows db (dbTermValue term_b) (dbTermValue term_a),
      (∃ b ∈ db.annotations_terms,
        b.study_id = r.study_id ∧ b.term = dbTermValue term_b) ∧
      (∀ a ∈ db.annotations_terms,
        a.study_id = r.study_id → a.term ≠ dbTermValue term_a)) := by
  refine ⟨?_, ?_, ?_, ?_⟩
  · exact nodup_study_id_of_meta hm (nodup_antiJoinTermRows db _ _)
      fun r hr => (mem_antiJoinTermRows hr).1
  · exact nodup_study_id_of_meta hm (nodup_antiJoinTermRows db _ _)
      fun r hr => (mem_antiJoinTermRows hr).1
  · intro r hr
    exact (mem_antiJoinTermRows hr).2
  · intro r hr
    exact (mem_antiJoinTermRows hr).2

/-- C1 witness: the dissociation properties evaluated on the sample database
at `pain`/`reward`, where `s1` has `pain` only and `s2` has both terms. -/
theorem claim1_witness :
    (dbEx.metadata.map MetaRow.study_id).Nodup ∧
    (((antiJoinTermRows dbEx (dbTermValue "pain") (dbTermValue "reward")).map
        StudyRow.study_id).Nodup ∧
      ((antiJoinTermRows dbEx (dbTermValue "reward") (dbTermValue "pain")).map
        StudyRow.study_id).Nodup ∧
      (∀ r ∈ antiJoinTermRows dbEx (dbTermValue "pain") (dbTermValue "reward"),
        (∃ a ∈ dbEx.annotations_terms,
          a.study_id = r.study_id ∧ a.term = dbTermValue "pain") ∧
        (∀ b ∈ dbEx.annotations_terms,
          b.study_id = r.study_id → b.term ≠ dbTermValue "reward")) ∧
      (∀ r ∈ antiJoinTermRows dbEx (dbTermValue "reward") (dbTermValue "pain"),
        (∃ b ∈ dbEx.annotations_terms,
          b.study_id = r.study_id ∧ b.term = dbTermValue "reward") ∧
        (∀ a ∈ dbEx.annotations_terms,
          a.study_id = r.study_id → a.term ≠ dbTermValue "pain"))) :=
  ⟨by decide, claim1_dissociation_lists dbEx "pain" "reward" (by decide)⟩

/-- C4: coordinate parsing succeeds and yields the three signed integers
exactly when the token splits on `_` into exactly three components, each a
valid (possibly signed) Python integer; `1_-2_3` parses as `(1, -2, 3)`,
while `1_2` and `a_b_c` fail, and any parse failure is answered with a 400
client-error response built by the handler itself, never a propagated
server fault. -/
theorem claim4_coordinate_parsing :
    (∀ (s : String) (x y z : Int), parseCoordToken s = some (x, y, z) ↔
      ∃ pa pb pc, splitUnders s.data = [pa, pb, pc] ∧ pyIntL pa = some x ∧
        pyIntL pb = some y ∧ pyIntL pc = some z) ∧
    parseCoordToken "1_-2_3" = some (1, -2, 3) ∧
    parseCoordToken "1_2" = none ∧
    parseCoordToken "a_b_c" = none ∧
    (∀ (st : Store) (c1 c2 : String),
      parseCoordToken c1 = none ∨ parseCoordToken c2 = none →
      dissociate_coordinates st c1 c2 =
        Except.ok (HttpResponse.mk 400 (errBody coordErrMsg))) := by
  refine ⟨?_, by decide, by decide, by decide, ?_⟩
  · intro s x y z
    constructor
    · intro h
      unfold parseCoordToken at h
      rcases hsp : splitUnders s.data with _ | ⟨a, _ | ⟨b, _ | ⟨c, _ | ⟨d, rest⟩⟩⟩⟩ <;>
        rw [hsp] at h <;> simp at h
      rcases ha : pyIntL a with _ | xa <;> rw [ha] at h <;> try simp at h
      rcases hb : pyIntL b with _ | xb <;> rw [hb] at h <;> try simp at h
      rcases hc : pyIntL c with _ | xc <;> rw [hc] at h <;> try simp at h
      exact ⟨a, b, c, rfl, by rw [ha, h.1], by rw [hb, h.2.1], by rw [hc, h.2.2]⟩
    · rintro ⟨pa, pb, pc, hsp, ha, hb, hc⟩
      unfold parseCoordToken
      rw [hsp]
      simp [ha, hb, hc]
  · intro st c1 c2 h
    unfold dissociate_coordinates
    rcases h with h | h
    · rw [h]
    · rcases hc1 : parseCoordToken c1 with _ | ⟨⟨x1, y1, z1⟩⟩
      · rfl
      · rw [h]

/-- C4 witness: the 400-response conjunct evaluated at the malformed token
`1_2` against a store whose every query would fail. -/
theorem claim4_witness :
    (parseCoordToken "1_2" = none ∨ parseCoordToken "0_0_0" = none) ∧
    dissociate_coordinates stBoom "1_2" "0_0_0" =
      Except.ok (HttpResponse.mk 400 (errBody coordErrMsg)) :=
  ⟨Or.inl (by decide),
    claim4_coordinate_parsing.2.2.2.2 stBoom "1_2" "0_0_0" (Or.inl (by decide))⟩

/-- C8: when either coordinate token is malformed the handler returns 400
with an error body before touching the store: the response is the same for
every store, including one whose every query would raise, so neither
anti-join query is issued. -/
theorem claim8_malformed_coordinates_400 (st : Store) (c1 c2 : String)
    (h : parseCoordToken c1 = none ∨ parseCoordToken c2 = none) :
    dissociate_coordinates st c1 c2 =
      Except.ok (HttpResponse.mk 400 (errBody coordErrMsg)) := by
  unfold dissociate_coordinates
  rcases h with h | h
  · rw [h]
  · rcases hc1 : parseCoordToken c1 with _ | ⟨⟨x1, y1, z1⟩⟩
    · rfl
    · rw [h]

/-- C8 witness: the scenario `/dissociate/locations/abc_0_0/0_0_0` against a
store whose every query would raise still answers 400 with the error body. -/
theorem claim8_witness :
    (parseCoordToken "abc_0_0" = none ∨ parseCoordToken "0_0_0" = none) ∧
    dissociate_coordinates stBoom "abc_0_0" "0_0_0" =
      Except.ok (HttpResponse.mk 400 (errBody coordErrMsg)) :=
  ⟨Or.inl (by decide),
    claim8_malformed_coordinates_400 stBoom "abc_0_0" "0_0_0" (Or.inl (by decide))⟩

/-- C9: every successful dissociation or intersection response is a
field-ordered object with the display-form inputs first and then the result
lists, under the fixed key names of each operation; the coordinate echo is a
comma-joined `x,y,z` string, and the serializer emits object fields in
association-list order (head field first), so the key order is preserved in
the serialized output. -/
theorem claim9_response_shape :
    (∀ (db : DB) (a b : String),
      functional_dissociation (Store.healthy db) a b =
        Except.ok (HttpResponse.mk 200 (JVal.obj [
          ("term_a", JVal.str (displayTerm a)),
          ("term_b", JVal.str (displayTerm b)),
          ("term_a_not_term_b",
            JVal.arr ((antiJoinTermRows db (dbTermValue a) (dbTermValue b)).map rowJson)),
          ("term_b_not_term_a",
            JVal.arr ((antiJoinTermRows db (dbTermValue b) (dbTermValue a)).map rowJson))]))) ∧
    (∀ (db : DB) (a b : String),
      intersect_terms (Store.healthy db) a b =
        Except.ok (HttpResponse.mk 200 (JVal.obj [
          ("term_a", JVal.str (displayTerm a)),
          ("term_b", JVal.str (displayTerm b)),
          ("term_a_and_term_b",
            JVal.arr ((interJoinTermRows db (dbTermValue a) (dbTermValue b)).map rowJson))]))) ∧
    (∀ (db : DB) (c1 c2 : String) (x1 y1 z1 x2 y2 z2 : Int),
      parseCoordToken c1 = some (x1, y1, z1) → parseCoordToken c2 = some (x2, y2, z2) →
      dissociate_coordinates (Store.healthy db) c1 c2 =
        Except.ok (HttpResponse.mk 200 (JVal.obj [
          ("coordinate_1", JVal.str (coordEcho x1 y1 z1)),
          ("coordinate_2", JVal.str (coordEcho x2 y2 z2)),
          ("coordinate_1_not_coordinate_2",
            JVal.arr ((antiJoinCoordRows db x1 y1 z1 x2 y2 z2).map rowJson)),
          ("coordinate_2_not_coordinate_1",
            JVal.arr ((antiJoinCoordRows db x2 y2 z2 x1 y1 z1).map rowJson))]))) ∧
    coordEcho 4 (-5) 6 = "4,-5,6" ∧
    (∀ (k : String) (v : JVal) (fs : List (String × JVal)),
      serializeJVal (JVal.obj ((k, v) :: fs)) =
        "\x7b" ++ ("\"" ++ k ++ "\": " ++ serializeJVal v ++
          (if fs.isEmpty then "" else ", " ++ serializeFields fs)) ++ "\x7d") := by
  refine ⟨fun db a b => rfl, fun db a b => rfl, ?_, by decide, ?_⟩
  · intro db c1 c2 x1 y1 z1 x2 y2 z2 h1 h2
    unfold dissociate_coordinates
    rw [h1, h2]
    rfl
  · intro k v fs
    cases fs with
    | nil => simp [serializeJVal, serializeFields]
    | cons f fs2 => simp [serializeJVal, serializeFields, String.append_assoc]

/-- C9 witness: the coordinate response shape evaluated on the sample
database for the tokens `0_0_0` and `10_10_10`. -/
theorem claim9_witness :
    (parseCoordToken "0_0_0" = some (0, 0, 0)) ∧
    (parseCoordToken "10_10_10" = some (10, 10, 10)) ∧
    dissociate_coordinates (Store.healthy dbEx) "0_0_0" "10_10_10" =
      Except.ok (HttpResponse.mk 200 (JVal.obj [
        ("coordinate_1", JVal.str (coordEcho 0 0 0)),
        ("coordinate_2", JVal.str (coordEcho 10 10 10)),
        ("coordinate_1_not_coordinate_2",
          JVal.arr ((antiJoinCoordRows dbEx 0 0 0 10 10 10).map rowJson)),
        ("coordinate_2_not_coordinate_1",
          JVal.arr ((antiJoinCoordRows dbEx 10 10 10 0 0 0).map rowJson))])) :=
  ⟨by decide, by decide,
    claim9_response_shape.2.2.1 dbEx "0_0_0" "10_10_10" 0 0 0 10 10 10
      (by decide) (by decide)⟩

/-- C5 counterexample: `/terms_sample` runs its query outside any
`try`/`except`, so on a store failure the handler does not return a 500
response with body `{"error": <message>}` — the exception escapes to the
framework (whose fallback error page is not that JSON body). -/
theorem claim5_counterexample :
    get_terms_sample stBoom = Except.error "boom" ∧
    (Except.error "boom" : Except String HttpResponse) ≠
      Except.ok (HttpResponse.mk 500 (errBody "boom")) :=
  ⟨rfl, by simp⟩

/-- C5 amended: for the four query operations (term lookup, term
dissociation, term intersection, coordinate dissociation) every
backing-store failure yields a 500 response with body `{"error": <message>}`
carrying the first failure's message, and no partial result is ever
returned — each operation either fully succeeds (all of its sub-queries) or
reports the first failure; `/terms_sample`, by contrast, propagates the
store exception to the framework instead of building that error body. -/
theorem claim5_error_handling :
    (∀ (st : Store) (e : String), st.failAt 0 = some e →
      get_terms_sample st = Except.error e) ∧
    (∀ st : Store, st.failAt 0 = none →
      get_terms_sample st = Except.ok (HttpResponse.mk 200
        (JVal.arr ((termsSampleRows st.db).map JVal.str)))) ∧
    (∀ (st : Store) (t e : String), st.failAt 0 = some e →
      get_studies_by_term st t = Except.ok (HttpResponse.mk 500 (errBody e))) ∧
    (∀ (st : Store) (t : String), st.failAt 0 = none →
      get_studies_by_term st t = Except.ok (HttpResponse.mk 200
        (JVal.arr ((membershipRows st.db (normalize_term t)).map rowJson)))) ∧
    (∀ (st : Store) (a b e : String), st.failAt 0 = some e →
      functional_dissociation st a b = Except.ok (HttpResponse.mk 500 (errBody e))) ∧
    (∀ (st : Store) (a b e : String), st.failAt 0 = none → st.failAt 1 = some e →
      functional_dissociation st a b = Except.ok (HttpResponse.mk 500 (errBody e))) ∧
    (∀ (st : Store) (a b : String), st.failAt 0 = none → st.failAt 1 = none →
      functional_dissociation st a b = Except.ok (HttpResponse.mk 200 (JVal.obj [
        ("term_a", JVal.str (displayTerm a)),
        ("term_b", JVal.str (displayTerm b)),
        ("term_a_not_term_b",
          JVal.arr ((antiJoinTermRows st.db (dbTermValue a) (dbTermValue b)).map rowJson)),
        ("term_b_not_term_a",
          JVal.arr ((antiJoinTermRows st.db (dbTermValue b) (dbTermValue a)).map rowJson))]))) ∧
    (∀ (st : Store) (a b e : String), st.failAt 0 = some e →
      intersect_terms st a b = Except.ok (HttpResponse.mk 500 (errBody e))) ∧
    (∀ (st : Store) (c1 c2 : String) (x1 y1 z1 x2 y2 z2 : Int) (e : String),
      parseCoordToken c1 = some (x1, y1, z1) → parseCoordToken c2 = some (x2, y2, z2) →
      st.failAt 0 = some e →
      dissociate_coordinates st c1 c2 = Except.ok (HttpResponse.mk 500 (errBody e))) ∧
    (∀ (st : Store) (c1 c2 : String) (x1 y1 z1 x2 y2 z2 : Int) (e : String),
      parseCoordToken c1 = some (x1, y1, z1) → parseCoordToken c2 = some (x2, y2, z2) →
      st.failAt 0 = none → st.failAt 1 = some e →
      dissociate_coordinates st c1 c2 = Except.ok (HttpResponse.mk 500 (errBody e))) := by
  refine ⟨?_, ?_, ?_, ?_, ?_, ?_, ?_, ?_, ?_, ?_⟩
  · intro st e h
    unfold get_terms_sample
    rw [runExec_some h]
    rfl
  · intro st h
    unfold get_terms_sample
    rw [runExec_none h]
    rfl
  · intro st t e h
    unfold get_studies_by_term
    simp only [runExec_some h]
  · intro st t h
    unfold get_studies_by_term
    simp only [runExec_none h]
  · intro st a b e h
    unfold functional_dissociation
    simp only [runExec_some h]
  · intro st a b e h0 h1
    unfold functional_dissociation
    simp only [runExec_none h0, runExec_some h1]
  · intro st a b h0 h1
    unfold functional_dissociation
    simp only [runExec_none h0, runExec_none h1]
    rfl
  · intro st a b e h
    unfold intersect_terms
    simp only [runExec_some h]
  · intro st c1 c2 x1 y1 z1 x2 y2 z2 e h1 h2 h0
    unfold dissociate_coordinates
    rw [h1, h2]
    simp only [runExec_some h0]
  · intro st c1 c2 x1 y1 z1 x2 y2 z2 e hp1 hp2 h0 h1
    unfold dissociate_coordinates
    rw [hp1, hp2]
    simp only [runExec_none h0, runExec_some h1]

/-- C5 witness: a first-query failure in the term lookup yields the 500
error body, and a second-query failure in the term dissociation yields the
500 error body with the second query's message and no partial result. -/
theorem claim5_witness :
    (stBoom.failAt 0 = some "boom") ∧
    get_studies_by_term stBoom "pain" =
      Except.ok (HttpResponse.mk 500 (errBody "boom")) ∧
    (stFailSecond.failAt 0 = none) ∧ (stFailSecond.failAt 1 = some "late failure") ∧
    functional_dissociation stFailSecond "pain" "reward" =
      Except.ok (HttpResponse.mk 500 (errBody "late failure")) :=
  ⟨rfl, claim5_error_handling.2.2.1 stBoom "pain" "boom" rfl, rfl, rfl,
    claim5_error_handling.2.2.2.2.2.1 stFailSecond "pain" "reward" "late failure" rfl rfl⟩
